import Mathlib

/-!
Verification development for the p2p-bot repository.

The repository contains three Python programs that share one logical core:
per-currency selection of the best peer-to-peer advertisement, normalization
of prices into EGP, ranking, and stateful threshold alerting.

This file shallowly embeds the relevant functions:
  - `fetch_p2p` (p2p_bot.py), `TgBot.get_p2p_price_for_currency`
    (telegram_bot.py) and `BuyBot.get_p2p_buy_price_for_currency`
    (buy_bot.py): the quote selectors, modelled from the point where the
    venue's HTTP response has been decoded into a list of advertisements
    (transport failures happen before the logic embedded here and are out of
    scope of the embedded fragment).
  - `TgBot.get_exchange_rate_to_egp` (telegram_bot.py): the currency
    normalizer, with the two network lookups abstracted as oracles; a
    transport exception is modelled as both lookups being unavailable.
  - the ranking sorts of `run_fetch` (p2p_bot.py) and `fetch_all`
    (telegram_bot.py); Python's `list.sort` is a stable sort by key, which is
    modelled by `List.insertionSort` with the corresponding total preorder
    (stable sorts by the same total preorder agree on all inputs).
  - `TgBot.check_and_send_alerts` (telegram_bot.py): the alert engine; the
    Python `set` of alerted keys is modelled as a list with membership
    checks, and sending a message is modelled by returning the list of
    offers for which an alert was emitted.
  - the configuration command handlers of telegram_bot.py and the
    `cmd_autostart` handler of p2p_bot.py, as explicit state transformers;
    command-argument parsing (`float(...)` / `int(...)`) is abstracted as an
    already-parsed optional value, where a missing or unparsable argument
    takes the same exception path in the source.

Python floats are modelled as rationals (`Rat`); `round(x, n)` uses Python's
round-half-to-even rule, embedded as `round_to`.
-/

/-- An advertisement row of the venue response, as the three programs read it:
`ad["adv"]["price"]`, `ad["adv"]["minSingleTransAmount"]`,
`ad["adv"]["dynamicMaxSingleTransAmount"]`, `ad["adv"]["surplusAmount"]`,
`ad["advertiser"]["nickName"]`, `ad["advertiser"]["monthFinishRate"]`,
`ad["advertiser"]["monthOrderCount"]`, and the list of
`m["tradeMethodName"]` over `ad["adv"]["tradeMethods"]`. -/
structure Ad where
  price : Rat
  minSingleTransAmount : Rat
  dynamicMaxSingleTransAmount : Rat
  surplusAmount : Rat
  nickName : String
  monthFinishRate : Rat
  monthOrderCount : Int
  tradeMethods : List String
deriving DecidableEq

/-- Python's `round` on rationals: round half to even (banker's rounding). -/
def pyRound (q : Rat) : Int :=
  let n := q.floor
  let frac := q - n
  if frac < (1 : Rat) / 2 then n
  else if (1 : Rat) / 2 < frac then n + 1
  else if n % 2 = 0 then n else n + 1

/-- Python's `round(q, nd)`: round to `nd` decimal digits, half to even. -/
def round_to (nd : Nat) (q : Rat) : Rat :=
  (pyRound (q * (10 : Rat) ^ nd) : Rat) / (10 : Rat) ^ nd

/-- The amount-range filter all three selectors share:
`mn <= amount <= mx and avl >= amount` on an advertisement. -/
def amountOk (amount : Rat) (a : Ad) : Bool :=
  decide (a.minSingleTransAmount ≤ amount)
    && decide (amount ≤ a.dynamicMaxSingleTransAmount)
    && decide (a.surplusAmount ≥ amount)

/-- Python's `max(v :: vs, key=price)`: the first element attaining the
maximal price (later elements replace the current best only on a strictly
greater key). -/
def maxByPrice (v : Ad) (vs : List Ad) : Ad :=
  vs.foldl (fun b x => if b.price < x.price then x else b) v

/-- Python's `min(v :: vs, key=price)`: the first element attaining the
minimal price. -/
def minByPrice (v : Ad) (vs : List Ad) : Ad :=
  vs.foldl (fun b x => if x.price < b.price then x else b) v

namespace P2pBot

/-- `PAY_METHODS` of p2p_bot.py (a set of three method names). -/
def PAY_METHODS : List String := ["Bank Transfer", "Faster Payment", "Instant Transfer"]

/-- The success dictionary produced by `fetch_p2p` in p2p_bot.py. -/
structure Result where
  fiat : String
  asset : String
  trade_type : String
  price : Rat
  merchant : String
  completion : Rat
  orders : Int
  methods : List String
  min : Rat
  max : Rat
  available : Rat
deriving DecidableEq

/-- `fetch_p2p` of p2p_bot.py, from the decoded advertisement list on:
empty-response check, amount-range filter, allow-list payment filter,
extremum selection (`max` by price for SELL, `min` for BUY), and the result
dictionary whose `methods` are the allow-listed subset of the winner's
payment methods. -/
def fetch_p2p (fiat asset trade_type : String) (amount : Rat) (ads : List Ad) :
    Except String Result :=
  if ads.isEmpty then .error "No ads found" else
  let valid := ads.filter (amountOk amount)
  if valid.isEmpty then .error "No ads match your amount" else
  match valid.filter (fun a => a.tradeMethods.any (fun m => decide (m ∈ PAY_METHODS))) with
  | [] => .error "No ads with allowed payment methods"
  | v :: vs =>
    let best := if trade_type = "SELL" then maxByPrice v vs else minByPrice v vs
    .ok {
      fiat := fiat
      asset := asset
      trade_type := trade_type
      price := best.price
      merchant := best.nickName
      completion := round_to 1 (best.monthFinishRate * 100)
      orders := best.monthOrderCount
      methods := best.tradeMethods.filter (fun m => decide (m ∈ PAY_METHODS))
      min := best.minSingleTransAmount
      max := best.dynamicMaxSingleTransAmount
      available := best.surplusAmount
    }

end P2pBot

namespace BuyBot

/-- `ALLOWED_PAYMENT_METHODS` of buy_bot.py. -/
def ALLOWED_PAYMENT_METHODS : List String :=
  ["Bank Transfer", "Faster Payment", "Instant Transfer"]

/-- The success dictionary produced by `get_p2p_buy_price_for_currency`. -/
structure Result where
  currency : String
  price : Rat
  total_usdt : Rat
  merchant : String
  payment_methods : List String
  min : Rat
  max : Rat
  available : Rat
  completion_pct : Rat
  monthly_orders : Int
deriving DecidableEq

/-- `get_p2p_buy_price_for_currency` of buy_bot.py, from the decoded
advertisement list on. The request uses `tradeType = "BUY"`, yet the winner
is chosen with `max(valid, key=price)` (line 116 of the source). -/
def get_p2p_buy_price_for_currency (currency : String) (usdt_amount : Rat)
    (ads : List Ad) : Except String Result :=
  if ads.isEmpty then .error "No ads" else
  let valid := ads.filter (amountOk usdt_amount)
  if valid.isEmpty then .error "No merchant accepts this amount" else
  match valid.filter
      (fun a => a.tradeMethods.any (fun m => decide (m ∈ ALLOWED_PAYMENT_METHODS))) with
  | [] => .error "No ads with allowed payment methods"
  | v :: vs =>
    let best := maxByPrice v vs
    .ok {
      currency := currency
      price := best.price
      total_usdt := usdt_amount * best.price
      merchant := best.nickName
      payment_methods := best.tradeMethods.filter
        (fun m => decide (m ∈ ALLOWED_PAYMENT_METHODS))
      min := best.minSingleTransAmount
      max := best.dynamicMaxSingleTransAmount
      available := best.surplusAmount
      completion_pct := round_to 2 (best.monthFinishRate * 100)
      monthly_orders := best.monthOrderCount
    }

end BuyBot

namespace TgBot

/-- `EXCLUDED_PAYMENT_METHODS` of telegram_bot.py (a deny-list). -/
def EXCLUDED_PAYMENT_METHODS : List String := ["Alipay"]

/-- The success dictionary produced by `get_p2p_price_for_currency` in
telegram_bot.py; `egp_equivalent` is attached later by `fetch_all`, so the
selector leaves it `none`. -/
structure Result where
  currency : String
  price : Rat
  total_in_currency : Rat
  merchant : String
  payment_methods : List String
  min : Rat
  max : Rat
  available : Rat
  completion_pct : Rat
  monthly_orders : Int
  egp_equivalent : Option Rat
deriving DecidableEq

/-- `get_p2p_price_for_currency` of telegram_bot.py, from the decoded
advertisement list on: empty-response check, amount-range filter, and
`max(valid, key=price)`. This variant applies no payment-method filter; the
offer carries the winner's full `tradeMethods` list. -/
def get_p2p_price_for_currency (currency : String) (usdt_amount : Rat)
    (ads : List Ad) : Except String Result :=
  if ads.isEmpty then .error "No ads" else
  match ads.filter (amountOk usdt_amount) with
  | [] => .error "No merchant accepts this amount"
  | v :: vs =>
    let best := maxByPrice v vs
    .ok {
      currency := currency
      price := best.price
      total_in_currency := usdt_amount * best.price
      merchant := best.nickName
      payment_methods := best.tradeMethods
      min := best.minSingleTransAmount
      max := best.dynamicMaxSingleTransAmount
      available := best.surplusAmount
      completion_pct := round_to 2 (best.monthFinishRate * 100)
      monthly_orders := best.monthOrderCount
      egp_equivalent := none
    }

/-- `get_exchange_rate_to_egp` of telegram_bot.py. The two HTTP lookups are
abstracted as oracles: `directRate c` is `rates["EGP"]` of
`latest/{c}` when that request succeeds and carries an EGP entry, and
`inverseRate c` is `rates[c]` of `latest/EGP` likewise; `none` covers a
failed request or a missing entry (a transport exception aborts both lookups
in the source, which is modelled by both oracles being `none`). A zero
inverse rate raises `ZeroDivisionError` in Python, which the bare `except`
turns into `None`. -/
def get_exchange_rate_to_egp (directRate : String → Option Rat)
    (inverseRate : String → Option Rat) (from_currency : String) (amount : Rat) :
    Option Rat :=
  if from_currency = "EGP" then some amount
  else
    match directRate from_currency with
    | some rate => some (amount * rate)
    | none =>
      match inverseRate from_currency with
      | some rate => if rate = 0 then none else some (amount / rate)
      | none => none

end TgBot

namespace P2pBot

/-- A `run_fetch` result row of p2p_bot.py: the `fetch_p2p` dictionary with
the `egp_price` and `amount_fiat` keys attached (lines 165-166). -/
structure Ranked where
  res : Result
  egp_price : Option Rat
  amount_fiat : Rat
deriving DecidableEq

/-- The sort key of `run_fetch` (line 174): `x["egp_price"] or 0`, i.e. a
missing (or zero) EGP price is compared as `0`. -/
def sortKey (x : Ranked) : Rat := x.egp_price.getD 0

/-- The comparison realised by `results.sort(key=..., reverse=(trade_type ==
"SELL"))` in p2p_bot.py lines 173-176: descending in the key for SELL,
ascending otherwise. -/
def sortRel (trade_type : String) (a b : Ranked) : Prop :=
  if trade_type = "SELL" then sortKey b ≤ sortKey a else sortKey a ≤ sortKey b

instance (trade_type : String) : DecidableRel (sortRel trade_type) := fun a b =>
  inferInstanceAs
    (Decidable (if trade_type = "SELL" then sortKey b ≤ sortKey a else sortKey a ≤ sortKey b))

instance (trade_type : String) : IsTotal Ranked (sortRel trade_type) where
  total a b := by unfold sortRel; split <;> exact le_total _ _

instance (trade_type : String) : IsTrans Ranked (sortRel trade_type) where
  trans a b c := by
    unfold sortRel
    split
    · exact fun h h2 => le_trans h2 h
    · exact fun h h2 => le_trans h h2

/-- The ranking step of `run_fetch` (p2p_bot.py lines 172-176). Python's
`list.sort` is a stable sort by key; a stable sort by a total preorder is
unique, so it is modelled by stable `List.insertionSort`. -/
def run_fetch_sort (trade_type : String) (results : List Ranked) : List Ranked :=
  results.insertionSort (sortRel trade_type)

end P2pBot

namespace TgBot

/-- The sort key of `fetch_all` (telegram_bot.py line 156):
`x.get("egp_equivalent") or 0`. -/
def sortKey (x : Result) : Rat := x.egp_equivalent.getD 0

/-- The comparison realised by `results.sort(key=..., reverse=True)` in
telegram_bot.py line 156: descending in the key. -/
def sortRel (a b : Result) : Prop := sortKey b ≤ sortKey a

instance : DecidableRel sortRel := fun a b =>
  inferInstanceAs (Decidable (sortKey b ≤ sortKey a))

instance : IsTotal Result sortRel where
  total a b := le_total _ _

instance : IsTrans Result sortRel where
  trans _ _ _ h h2 := le_trans h2 h

/-- The ranking step of `fetch_all` (telegram_bot.py line 156), as the stable
sort by the descending key. -/
def fetch_all_sort (results : List Result) : List Result :=
  results.insertionSort sortRel

/-- The deduplication identity of an alert, telegram_bot.py line 243:
`(r["currency"], round(r["price"], 4))`. -/
def alert_key (r : Result) : String × Rat := (r.currency, round_to 4 r.price)

/-- The non-deny-listed payment methods of an offer (telegram_bot.py lines
238-239). -/
def non_excluded (ms : List String) : List String :=
  ms.filter (fun p => decide (p ∉ EXCLUDED_PAYMENT_METHODS))

/-- The per-offer skip condition of the alert loop in
`check_and_send_alerts` (lines 233-241): skip when `not egp or egp <=
threshold` (so a missing or zero EGP value is skipped) or when every payment
method is deny-listed. -/
def skips (threshold : Rat) (r : Result) : Bool :=
  match r.egp_equivalent with
  | none => true
  | some egp =>
    decide (egp = 0) || decide (egp ≤ threshold) || (non_excluded r.payment_methods).isEmpty

/-- The alert loop of `check_and_send_alerts` (lines 233-255): walk the
ranked results in order; for each offer that is not skipped and whose alert
key is not yet recorded, record the key and send the alert. Returns the
final key set and the offers alerted on, in sending order. -/
def check_go (threshold : Rat) :
    List Result → List (String × Rat) → List (String × Rat) × List Result
  | [], keys => (keys, [])
  | r :: rs, keys =>
    if skips threshold r then check_go threshold rs keys
    else if alert_key r ∈ keys then check_go threshold rs keys
    else ((check_go threshold rs (alert_key r :: keys)).1,
          r :: (check_go threshold rs (alert_key r :: keys)).2)

/-- `check_and_send_alerts` of telegram_bot.py (lines 228-255): a `None`
threshold returns immediately with no alert and no state change; otherwise
the alert loop runs over the results with the current alerted-key set. -/
def check_and_send_alerts (threshold : Option Rat) (results : List Result)
    (alerted_keys : List (String × Rat)) : List (String × Rat) × List Result :=
  match threshold with
  | none => (alerted_keys, [])
  | some t => check_go t results alerted_keys

/-- The mutable `state` dictionary of telegram_bot.py (lines 43-51), with
the timestamp abstracted as a natural number. -/
structure State where
  usdt_amount : Rat
  threshold_egp : Option Rat
  auto_interval : Int
  auto_active : Bool
  last_fetch : Option Nat
  last_results : List Result
  alerted_keys : List (String × Rat)
deriving DecidableEq

/-- `cmd_setamount` of telegram_bot.py (lines 302-313): a missing or
unparsable argument (`arg = none`) or a non-positive amount raises before
any mutation; otherwise the amount is set and `alerted_keys` is cleared.
Returns the new state and whether the command succeeded. -/
def cmd_setamount (arg : Option Rat) (s : State) : State × Bool :=
  match arg with
  | none => (s, false)
  | some amount =>
    if amount ≤ 0 then (s, false)
    else ({ s with usdt_amount := amount, alerted_keys := [] }, true)

/-- `cmd_setalert` of telegram_bot.py (lines 316-330): a missing or
unparsable argument or a non-positive threshold raises before any mutation;
otherwise the threshold is set and `alerted_keys` is cleared. -/
def cmd_setalert (arg : Option Rat) (s : State) : State × Bool :=
  match arg with
  | none => (s, false)
  | some threshold =>
    if threshold ≤ 0 then (s, false)
    else ({ s with threshold_egp := some threshold, alerted_keys := [] }, true)

/-- `cmd_cancelalert` of telegram_bot.py (lines 333-336): unconditionally
clears the threshold and the alerted keys. -/
def cmd_cancelalert (s : State) : State :=
  { s with threshold_egp := none, alerted_keys := [] }

/-- A parsed command argument: absent, unparsable, or an integer value. -/
inductive CmdArg where
  | missing
  | bad
  | val (n : Int)
deriving DecidableEq

/-- `cmd_autostart` of telegram_bot.py (lines 339-362). The job queue is
modelled by the number of jobs named `auto_refresh`. A missing argument
defaults the interval to 60; an unparsable argument or an interval below 10
raises before any mutation; otherwise the interval and active flag are set,
every existing `auto_refresh` job is removed and one new job is scheduled.
Returns the new state, the new job count, and the success flag. -/
def cmd_autostart (arg : CmdArg) (s : State) (jobs : Nat) : State × Nat × Bool :=
  match arg with
  | .bad => (s, jobs, false)
  | .missing =>
    ({ s with auto_interval := 60, auto_active := true }, 1, true)
  | .val n =>
    if n < 10 then (s, jobs, false)
    else ({ s with auto_interval := n, auto_active := true }, 1, true)

/-- `cmd_fetch` of telegram_bot.py (lines 277-299): clears `alerted_keys`,
then (in the worker) stores the fetched results and timestamp and runs
`check_and_send_alerts` on the fresh key set. The fetched results and the
clock are inputs; returns the new state and the alerted offers. -/
def cmd_fetch (results : List Result) (now : Nat) (s : State) : State × List Result :=
  let s1 := { s with alerted_keys := [] }
  let s2 := { s1 with last_results := results, last_fetch := some now }
  let out := check_and_send_alerts s2.threshold_egp results s2.alerted_keys
  ({ s2 with alerted_keys := out.1 }, out.2)

/-- `_auto_refresh_job` of telegram_bot.py (lines 405-412): a no-op when
auto mode is inactive; otherwise stores the fetched results and timestamp
and runs `check_and_send_alerts` with the carried-over alerted-key set (no
clearing). -/
def auto_refresh_job (results : List Result) (now : Nat) (s : State) :
    State × List Result :=
  if s.auto_active = false then (s, [])
  else
    let s2 := { s with last_results := results, last_fetch := some now }
    let out := check_and_send_alerts s2.threshold_egp results s2.alerted_keys
    ({ s2 with alerted_keys := out.1 }, out.2)

end TgBot

namespace P2pBot

/-- The mutable `state` dictionary of p2p_bot.py (lines 25-32), with the
timestamp dropped and the scheduled job abstracted as an optional job id. -/
structure State where
  amount_gbp : Rat
  asset : String
  trade_type : String
  alert_threshold : Option Rat
  auto_job : Option Nat
deriving DecidableEq

/-- `cmd_autostart` of p2p_bot.py (lines 342-365): a missing or unparsable
argument raises before any mutation; an interval below 30 replies with an
error and returns before any mutation; otherwise the existing job (if any)
is removed and a new job is scheduled and stored. -/
def cmd_autostart (arg : TgBot.CmdArg) (s : State) (newJobId : Nat) : State × Bool :=
  match arg with
  | .missing => (s, false)
  | .bad => (s, false)
  | .val n =>
    if n < 30 then (s, false)
    else ({ s with auto_job := some newJobId }, true)

end P2pBot

/-! ### Concrete fixtures and formalised claim statements -/

/-- An advertisement whose only payment method is the deny-listed Alipay;
it passes the amount filter for a requested amount of 100. -/
def adAlipayOnly : Ad :=
  { price := 50, minSingleTransAmount := 10, dynamicMaxSingleTransAmount := 1000,
    surplusAmount := 500, nickName := "m1", monthFinishRate := 1, monthOrderCount := 10,
    tradeMethods := ["Alipay"] }

/-- An advertisement with an allow-listed method and unit price 2. -/
def adBank : Ad :=
  { price := 2, minSingleTransAmount := 10, dynamicMaxSingleTransAmount := 1000,
    surplusAmount := 500, nickName := "high", monthFinishRate := 1, monthOrderCount := 10,
    tradeMethods := ["Bank Transfer", "Alipay"] }

/-- An advertisement with an allow-listed method and unit price 1. -/
def adLow : Ad :=
  { price := 1, minSingleTransAmount := 10, dynamicMaxSingleTransAmount := 1000,
    surplusAmount := 500, nickName := "low", monthFinishRate := 1, monthOrderCount := 5,
    tradeMethods := ["Bank Transfer"] }

/-- The offer `TgBot.get_p2p_price_for_currency "EUR" 100 [adAlipayOnly]`
produces. -/
def tgAlipaySelected : TgBot.Result :=
  { currency := "EUR", price := 50, total_in_currency := 100 * 50, merchant := "m1",
    payment_methods := ["Alipay"], min := 10, max := 1000, available := 500,
    completion_pct := round_to 2 (1 * 100), monthly_orders := 10, egp_equivalent := none }

/-- The offer `P2pBot.fetch_p2p "EUR" "USDT" "SELL" 100 [adBank]` produces. -/
def p2pBankResult : P2pBot.Result :=
  { fiat := "EUR", asset := "USDT", trade_type := "SELL", price := 2, merchant := "high",
    completion := round_to 1 (1 * 100), orders := 10, methods := ["Bank Transfer"],
    min := 10, max := 1000, available := 500 }

/-- The offer `BuyBot.get_p2p_buy_price_for_currency "EUR" 100 [adLow, adBank]`
produces: the highest-priced candidate, although the trade direction is BUY. -/
def buyMaxResult : BuyBot.Result :=
  { currency := "EUR", price := 2, total_usdt := 100 * 2, merchant := "high",
    payment_methods := ["Bank Transfer"], min := 10, max := 1000, available := 500,
    completion_pct := round_to 2 (1 * 100), monthly_orders := 10 }

/-- The offer `P2pBot.fetch_p2p "EUR" "USDT" "BUY" 100 [adLow, adBank]`
produces: the lowest-priced candidate. -/
def p2pBuyMinResult : P2pBot.Result :=
  { fiat := "EUR", asset := "USDT", trade_type := "BUY", price := 1, merchant := "low",
    completion := round_to 1 (1 * 100), orders := 5, methods := ["Bank Transfer"],
    min := 10, max := 1000, available := 500 }

/-- A ranked telegram offer above a 1000 EGP threshold whose only payment
method is deny-listed. -/
def tgOfferAlipay : TgBot.Result :=
  { currency := "EUR", price := 50, total_in_currency := 5000, merchant := "m1",
    payment_methods := ["Alipay"], min := 10, max := 1000, available := 500,
    completion_pct := 100, monthly_orders := 10, egp_equivalent := some 2000 }

/-- A ranked telegram offer above a 1000 EGP threshold with an allowed
payment method. -/
def tgOfferBank : TgBot.Result :=
  { currency := "EUR", price := 50, total_in_currency := 5000, merchant := "m2",
    payment_methods := ["Bank Transfer"], min := 10, max := 1000, available := 500,
    completion_pct := 100, monthly_orders := 10, egp_equivalent := some 2000 }

/-- A stub fetch result used to build ranked rows. -/
def p2pResStub : P2pBot.Result :=
  { fiat := "USD", asset := "USDT", trade_type := "BUY", price := 1, merchant := "x",
    completion := 0, orders := 0, methods := ["Bank Transfer"], min := 1, max := 10,
    available := 10 }

/-- A ranked row whose EGP normalization failed. -/
def rankedNull : P2pBot.Ranked := { res := p2pResStub, egp_price := none, amount_fiat := 100 }

/-- A ranked row with EGP value 5. -/
def rankedPos : P2pBot.Ranked := { res := p2pResStub, egp_price := some 5, amount_fiat := 100 }

/-- A telegram engine state with one stale alerted key and no threshold. -/
def tgStateDemo : TgBot.State :=
  { usdt_amount := 100, threshold_egp := none, auto_interval := 60, auto_active := false,
    last_fetch := none, last_results := [], alerted_keys := [("EUR", 50)] }

/-- A telegram engine state with a 1000 EGP threshold, auto mode on, and the
key of `tgOfferBank` already alerted. -/
def tgStateWithAlert : TgBot.State :=
  { usdt_amount := 100, threshold_egp := some 1000, auto_interval := 60, auto_active := true,
    last_fetch := none, last_results := [], alerted_keys := [TgBot.alert_key tgOfferBank] }

/-- A p2p_bot engine state. -/
def p2pStateDemo : P2pBot.State :=
  { amount_gbp := 500, asset := "USDT", trade_type := "SELL", alert_threshold := none,
    auto_job := none }

/-- Claim C1 as stated: whenever a selector succeeds, the selected
advertisement satisfies the amount bounds and the offer carries at least one
payment method from the configured allow-list — read against the deny-list
variant (telegram_bot.py, which configures no allow-list) as at least one
method outside the deny-list. -/
def c1_claim_statement : Prop :=
  (∀ (fiat asset trade_type : String) (amount : Rat) (ads : List Ad) (r : P2pBot.Result),
    P2pBot.fetch_p2p fiat asset trade_type amount ads = .ok r →
      r.min ≤ amount ∧ amount ≤ r.max ∧ r.available ≥ amount ∧
      ∃ m ∈ r.methods, m ∈ P2pBot.PAY_METHODS) ∧
  (∀ (currency : String) (amount : Rat) (ads : List Ad) (r : BuyBot.Result),
    BuyBot.get_p2p_buy_price_for_currency currency amount ads = .ok r →
      r.min ≤ amount ∧ amount ≤ r.max ∧ r.available ≥ amount ∧
      ∃ m ∈ r.payment_methods, m ∈ BuyBot.ALLOWED_PAYMENT_METHODS) ∧
  (∀ (currency : String) (amount : Rat) (ads : List Ad) (r : TgBot.Result),
    TgBot.get_p2p_price_for_currency currency amount ads = .ok r →
      r.min ≤ amount ∧ amount ≤ r.max ∧ r.available ≥ amount ∧
      ∃ m ∈ r.payment_methods, m ∉ TgBot.EXCLUDED_PAYMENT_METHODS)

/-- Claim C3 as stated: every ranked list is sorted by normalized EGP value
(non-increasing for SELL, non-decreasing otherwise) and offers with a null
normalized value are placed after all offers with one, regardless of
direction. -/
def c3_claim_statement : Prop :=
  (∀ (trade_type : String) (rs : List P2pBot.Ranked),
    ((P2pBot.run_fetch_sort trade_type rs).Pairwise fun a b =>
      ∀ va vb : Rat, a.egp_price = some va → b.egp_price = some vb →
        if trade_type = "SELL" then vb ≤ va else va ≤ vb) ∧
    ((P2pBot.run_fetch_sort trade_type rs).Pairwise fun a b =>
      a.egp_price = none → b.egp_price = none)) ∧
  (∀ rs : List TgBot.Result,
    ((TgBot.fetch_all_sort rs).Pairwise fun a b =>
      ∀ va vb : Rat, a.egp_equivalent = some va → b.egp_equivalent = some vb → vb ≤ va) ∧
    ((TgBot.fetch_all_sort rs).Pairwise fun a b =>
      a.egp_equivalent = none → b.egp_equivalent = none))

/-- Claim C4 as stated: with a threshold configured, the telegram alert
engine (direction SELL) emits an alert for an offer if and only if the offer
is in the results, its normalized value is non-null and strictly above the
threshold, and its alert key is not already recorded; with no threshold the
evaluation is a no-op. -/
def c4_claim_statement : Prop :=
  (∀ (rs : List TgBot.Result) (ks : List (String × Rat)),
    TgBot.check_and_send_alerts none rs ks = (ks, [])) ∧
  (∀ (t : Rat) (rs : List TgBot.Result) (ks : List (String × Rat)) (r : TgBot.Result),
    r ∈ (TgBot.check_and_send_alerts (some t) rs ks).2 ↔
      r ∈ rs ∧ (∃ v : Rat, r.egp_equivalent = some v ∧ t < v) ∧ TgBot.alert_key r ∉ ks)

/-! ### Helper lemmas -/

/-- A fold whose step always returns one of its two arguments stays inside
the candidate pool. -/
theorem foldl_choice_mem {α : Type} (f : α → α → α)
    (hf : ∀ b x, f b x = b ∨ f b x = x) :
    ∀ (vs : List α) (v : α), vs.foldl f v = v ∨ vs.foldl f v ∈ vs := by
  intro vs
  induction vs with
  | nil => intro v; left; rfl
  | cons x xs ih =>
    intro v
    simp only [List.foldl_cons]
    rcases hf v x with he | he
    · rw [he]
      rcases ih v with h | h
      · left; exact h
      · right; exact List.mem_cons_of_mem _ h
    · rw [he]
      rcases ih x with h | h
      · right; rw [h]; exact List.mem_cons_self _ _
      · right; exact List.mem_cons_of_mem _ h

/-- The winner of Python's `max(v :: vs, key=price)` is one of the
candidates. -/
theorem maxByPrice_mem (v : Ad) (vs : List Ad) : maxByPrice v vs ∈ v :: vs := by
  have hf : ∀ b x : Ad,
      (fun b x : Ad => if b.price < x.price then x else b) b x = b ∨
      (fun b x : Ad => if b.price < x.price then x else b) b x = x := by
    intro b x; by_cases h : b.price < x.price <;> simp [h]
  have hmem := foldl_choice_mem (fun b x : Ad => if b.price < x.price then x else b) hf vs v
  unfold maxByPrice
  rcases hmem with h | h
  · rw [h]; exact List.mem_cons_self _ _
  · exact List.mem_cons_of_mem _ h

/-- The winner of Python's `min(v :: vs, key=price)` is one of the
candidates. -/
theorem minByPrice_mem (v : Ad) (vs : List Ad) : minByPrice v vs ∈ v :: vs := by
  have hf : ∀ b x : Ad,
      (fun b x : Ad => if x.price < b.price then x else b) b x = b ∨
      (fun b x : Ad => if x.price < b.price then x else b) b x = x := by
    intro b x; by_cases h : x.price < b.price <;> simp [h]
  have hmem := foldl_choice_mem (fun b x : Ad => if x.price < b.price then x else b) hf vs v
  unfold minByPrice
  rcases hmem with h | h
  · rw [h]; exact List.mem_cons_self _ _
  · exact List.mem_cons_of_mem _ h

/-- Unfolding the amount-range filter. -/
theorem amountOk_iff (amount : Rat) (a : Ad) :
    amountOk amount a = true ↔
      a.minSingleTransAmount ≤ amount ∧ amount ≤ a.dynamicMaxSingleTransAmount ∧
        a.surplusAmount ≥ amount := by
  simp [amountOk, and_assoc]

/-- An element of the doubly filtered candidate list is an advertisement
satisfying both filters. -/
theorem best_mem_filters {p q : Ad → Bool} {ads : List Ad} {v : Ad} {vs : List Ad}
    (hfil : (ads.filter p).filter q = v :: vs) {best : Ad} (hbest : best ∈ v :: vs) :
    best ∈ ads ∧ p best = true ∧ q best = true := by
  have hmem : best ∈ (ads.filter p).filter q := hfil ▸ hbest
  have h1 := List.mem_filter.mp hmem
  have h2 := List.mem_filter.mp h1.1
  exact ⟨h2.1, h2.2, h1.2⟩

namespace TgBot

/-- The alert loop only ever adds keys: the incoming key set survives. -/
theorem check_go_keys_mono (t : Rat) (rs : List Result) :
    ∀ ks : List (String × Rat), ks ⊆ (check_go t rs ks).1 := by
  induction rs with
  | nil => intro ks; simp [check_go]
  | cons r rest ih =>
    intro ks
    simp only [check_go]
    split_ifs with h1 h2
    · exact ih ks
    · exact ih ks
    · exact fun x hx => ih _ (List.mem_cons_of_mem _ hx)

/-- After the alert loop, every non-skipped offer of the input has its key
in the final key set. -/
theorem check_go_keys_complete (t : Rat) (rs : List Result) :
    ∀ (ks : List (String × Rat)) (r : Result), r ∈ rs → skips t r = false →
      alert_key r ∈ (check_go t rs ks).1 := by
  induction rs with
  | nil => intro ks r h; simp at h
  | cons r0 rest ih =>
    intro ks r hr hs
    simp only [check_go]
    rcases List.mem_cons.mp hr with rfl | hr'
    · rw [hs]
      simp only [Bool.false_eq_true, if_false]
      split_ifs with h2
      · exact check_go_keys_mono t rest ks h2
      · exact check_go_keys_mono t rest _ (List.mem_cons_self _ _)
    · split_ifs with h1 h2
      · exact ih ks r hr' hs
      · exact ih ks r hr' hs
      · exact ih _ r hr' hs

/-- If every non-skipped offer already has its key recorded, the alert loop
emits nothing. -/
theorem check_go_no_new (t : Rat) (rs : List Result) :
    ∀ ks : List (String × Rat),
      (∀ r ∈ rs, skips t r = false → alert_key r ∈ ks) →
      (check_go t rs ks).2 = [] := by
  induction rs with
  | nil => intro ks _; simp [check_go]
  | cons r0 rest ih =>
    intro ks h
    simp only [check_go]
    split_ifs with h1 h2
    · exact ih ks fun r hr hs => h r (List.mem_cons_of_mem _ hr) hs
    · exact ih ks fun r hr hs => h r (List.mem_cons_of_mem _ hr) hs
    · exact absurd (h r0 (List.mem_cons_self _ _) (by simpa using h1)) h2

/-- Every emitted offer comes from the input, is not skipped, and its key
was not in the incoming key set. -/
theorem check_go_sent_inv (t : Rat) (rs : List Result) :
    ∀ (ks : List (String × Rat)) (r : Result), r ∈ (check_go t rs ks).2 →
      r ∈ rs ∧ skips t r = false ∧ alert_key r ∉ ks := by
  induction rs with
  | nil => intro ks r h; simp [check_go] at h
  | cons r0 rest ih =>
    intro ks r h
    simp only [check_go] at h
    split_ifs at h with h1 h2
    · obtain ⟨h3, h4, h5⟩ := ih ks r h
      exact ⟨List.mem_cons_of_mem _ h3, h4, h5⟩
    · obtain ⟨h3, h4, h5⟩ := ih ks r h
      exact ⟨List.mem_cons_of_mem _ h3, h4, h5⟩
    · rcases List.mem_cons.mp h with rfl | h'
      · exact ⟨List.mem_cons_self _ _, by simpa using h1, h2⟩
      · obtain ⟨h3, h4, h5⟩ := ih _ r h'
        exact ⟨List.mem_cons_of_mem _ h3, h4, fun hk => h5 (List.mem_cons_of_mem _ hk)⟩

/-- On inputs with pairwise distinct alert keys, every non-skipped offer
whose key is not yet recorded is emitted. -/
theorem check_go_mem_sent (t : Rat) (rs : List Result) :
    ∀ (ks : List (String × Rat)) (r : Result), (rs.map alert_key).Nodup →
      r ∈ rs → skips t r = false → alert_key r ∉ ks →
      r ∈ (check_go t rs ks).2 := by
  induction rs with
  | nil => intro ks r _ h; simp at h
  | cons r0 rest ih =>
    intro ks r hnd hr hs hk
    simp only [List.map_cons, List.nodup_cons] at hnd
    obtain ⟨hk0, hnd'⟩ := hnd
    simp only [check_go]
    split_ifs with h1 h2
    · rcases List.mem_cons.mp hr with rfl | hr'
      · rw [hs] at h1; exact absurd h1 (by simp)
      · exact ih ks r hnd' hr' hs hk
    · rcases List.mem_cons.mp hr with rfl | hr'
      · exact absurd h2 hk
      · exact ih ks r hnd' hr' hs hk
    · rcases List.mem_cons.mp hr with rfl | hr'
      · exact List.mem_cons_self _ _
      · refine List.mem_cons_of_mem _ (ih _ r hnd' hr' hs ?_)
        intro hmem
        rcases List.mem_cons.mp hmem with heq | hmem'
        · exact hk0 (heq ▸ List.mem_map_of_mem alert_key hr')
        · exact hk hmem'

/-- The emitted offers carry pairwise distinct alert keys. -/
theorem check_go_sent_nodup (t : Rat) (rs : List Result) :
    ∀ ks : List (String × Rat), ((check_go t rs ks).2.map alert_key).Nodup := by
  induction rs with
  | nil => intro ks; simp [check_go]
  | cons r0 rest ih =>
    intro ks
    simp only [check_go]
    split_ifs with h1 h2
    · exact ih ks
    · exact ih ks
    · simp only [List.map_cons, List.nodup_cons]
      refine ⟨?_, ih _⟩
      intro hmem
      obtain ⟨r, hr, hkey⟩ := List.mem_map.mp hmem
      have h5 := (check_go_sent_inv t rest _ r hr).2.2
      exact h5 (hkey ▸ List.mem_cons_self _ _)

end TgBot

/-- Anatomy of a successful `fetch_p2p`: the returned offer is built from an
advertisement of the input that passed the amount filter and the allow-list
filter, and its `methods` are that advertisement's allow-listed methods. -/
theorem fetch_p2p_ok_shape (fiat asset trade_type : String) (amount : Rat)
    (ads : List Ad) (r : P2pBot.Result)
    (h : P2pBot.fetch_p2p fiat asset trade_type amount ads = .ok r) :
    ∃ best ∈ ads, amountOk amount best = true ∧
      best.tradeMethods.any (fun m => decide (m ∈ P2pBot.PAY_METHODS)) = true ∧
      r.min = best.minSingleTransAmount ∧ r.max = best.dynamicMaxSingleTransAmount ∧
      r.available = best.surplusAmount ∧ r.price = best.price ∧
      r.methods = best.tradeMethods.filter (fun m => decide (m ∈ P2pBot.PAY_METHODS)) := by
  simp only [P2pBot.fetch_p2p] at h
  rcases hfil : (ads.filter (amountOk amount)).filter
      (fun a => a.tradeMethods.any (fun m => decide (m ∈ P2pBot.PAY_METHODS))) with
    _ | ⟨v, vs⟩
  · rw [hfil] at h
    dsimp only at h
    split_ifs at h
  · rw [hfil] at h
    dsimp only at h
    split_ifs at h with h1 h2 h3
    · simp only [Except.ok.injEq] at h
      subst h
      have hmem := maxByPrice_mem v vs
      obtain ⟨hads, hok, hpay⟩ := best_mem_filters hfil hmem
      exact ⟨maxByPrice v vs, hads, hok, hpay, rfl, rfl, rfl, rfl, rfl⟩
    · simp only [Except.ok.injEq] at h
      subst h
      have hmem := minByPrice_mem v vs
      obtain ⟨hads, hok, hpay⟩ := best_mem_filters hfil hmem
      exact ⟨minByPrice v vs, hads, hok, hpay, rfl, rfl, rfl, rfl, rfl⟩

/-- Anatomy of a successful `get_p2p_buy_price_for_currency`: the returned
offer is built from an advertisement of the input that passed the amount
filter and the allow-list filter, and its `payment_methods` are that
advertisement's allow-listed methods. -/
theorem buy_price_ok_shape (currency : String) (usdt_amount : Rat)
    (ads : List Ad) (r : BuyBot.Result)
    (h : BuyBot.get_p2p_buy_price_for_currency currency usdt_amount ads = .ok r) :
    ∃ best ∈ ads, amountOk usdt_amount best = true ∧
      best.tradeMethods.any (fun m => decide (m ∈ BuyBot.ALLOWED_PAYMENT_METHODS)) = true ∧
      r.min = best.minSingleTransAmount ∧ r.max = best.dynamicMaxSingleTransAmount ∧
      r.available = best.surplusAmount ∧ r.price = best.price ∧
      r.payment_methods =
        best.tradeMethods.filter (fun m => decide (m ∈ BuyBot.ALLOWED_PAYMENT_METHODS)) := by
  simp only [BuyBot.get_p2p_buy_price_for_currency] at h
  rcases hfil : (ads.filter (amountOk usdt_amount)).filter
      (fun a => a.tradeMethods.any (fun m => decide (m ∈ BuyBot.ALLOWED_PAYMENT_METHODS))) with
    _ | ⟨v, vs⟩
  · rw [hfil] at h
    dsimp only at h
    split_ifs at h with h1 h2
  · rw [hfil] at h
    dsimp only at h
    split_ifs at h with h1 h2
    simp only [Except.ok.injEq] at h
    subst h
    have hmem := maxByPrice_mem v vs
    obtain ⟨hads, hok, hpay⟩ := best_mem_filters hfil hmem
    exact ⟨maxByPrice v vs, hads, hok, hpay, rfl, rfl, rfl, rfl, rfl⟩

/-- Anatomy of a successful `get_p2p_price_for_currency`: the returned offer
is built from an advertisement of the input that passed the amount filter,
with the advertisement's full (unfiltered) payment-method list. -/
theorem tg_price_ok_shape (currency : String) (usdt_amount : Rat)
    (ads : List Ad) (r : TgBot.Result)
    (h : TgBot.get_p2p_price_for_currency currency usdt_amount ads = .ok r) :
    ∃ best ∈ ads, amountOk usdt_amount best = true ∧
      r.min = best.minSingleTransAmount ∧ r.max = best.dynamicMaxSingleTransAmount ∧
      r.available = best.surplusAmount ∧ r.price = best.price ∧
      r.payment_methods = best.tradeMethods := by
  simp only [TgBot.get_p2p_price_for_currency] at h
  rcases hfil : ads.filter (amountOk usdt_amount) with _ | ⟨v, vs⟩
  · rw [hfil] at h
    dsimp only at h
    split_ifs at h with h1
  · rw [hfil] at h
    dsimp only at h
    split_ifs at h with h1
    simp only [Except.ok.injEq] at h
    subst h
    have hmem := maxByPrice_mem v vs
    have hfmem : maxByPrice v vs ∈ ads.filter (amountOk usdt_amount) := hfil ▸ hmem
    have h2 := List.mem_filter.mp hfmem
    exact ⟨maxByPrice v vs, h2.1, h2.2, rfl, rfl, rfl, rfl, rfl⟩

/-- The ranking of `run_fetch` is sorted for the comparison it was invoked
with (descending in the null-as-0 key for SELL, ascending otherwise). -/
theorem run_fetch_sort_sorted (trade_type : String) (rs : List P2pBot.Ranked) :
    (P2pBot.run_fetch_sort trade_type rs).Pairwise (P2pBot.sortRel trade_type) :=
  List.sorted_insertionSort _ _

/-- The ranking of `run_fetch` is a permutation-invariant on membership. -/
theorem run_fetch_sort_mem (trade_type : String) (rs : List P2pBot.Ranked)
    (r : P2pBot.Ranked) : r ∈ P2pBot.run_fetch_sort trade_type rs ↔ r ∈ rs :=
  List.mem_insertionSort _

/-- The ranking of `fetch_all` is sorted descending in the null-as-0 key. -/
theorem fetch_all_sort_sorted (rs : List TgBot.Result) :
    (TgBot.fetch_all_sort rs).Pairwise TgBot.sortRel :=
  List.sorted_insertionSort _ _

/-- The ranking of `fetch_all` preserves membership. -/
theorem fetch_all_sort_mem (rs : List TgBot.Result) (r : TgBot.Result) :
    r ∈ TgBot.fetch_all_sort rs ↔ r ∈ rs :=
  List.mem_insertionSort _

/-- In SELL direction, when every available EGP value is positive, offers
with a missing EGP value end up after all offers that have one. -/
theorem run_fetch_sort_nulls_last (rs : List P2pBot.Ranked)
    (hpos : ∀ r ∈ rs, ∀ v : Rat, r.egp_price = some v → 0 < v) :
    (P2pBot.run_fetch_sort "SELL" rs).Pairwise
      (fun a b => a.egp_price = none → b.egp_price = none) := by
  have hs := run_fetch_sort_sorted "SELL" rs
  refine hs.imp_of_mem ?_
  intro a b ha hb hab hnone
  cases hb' : b.egp_price with
  | none => rfl
  | some v =>
    have hbmem : b ∈ rs := (run_fetch_sort_mem "SELL" rs b).mp hb
    have hv := hpos b hbmem v hb'
    have hle : P2pBot.sortKey b ≤ P2pBot.sortKey a := by
      simpa [P2pBot.sortRel] using hab
    rw [P2pBot.sortKey, P2pBot.sortKey, hnone, hb'] at hle
    simp only [Option.getD_some, Option.getD_none] at hle
    exact absurd (lt_of_lt_of_le hv hle) (lt_irrefl 0)

/-- In the telegram variant (SELL only), when every available EGP value is
positive, offers with a missing EGP value end up after all offers that have
one. -/
theorem fetch_all_sort_nulls_last (rs : List TgBot.Result)
    (hpos : ∀ r ∈ rs, ∀ v : Rat, r.egp_equivalent = some v → 0 < v) :
    (TgBot.fetch_all_sort rs).Pairwise
      (fun a b => a.egp_equivalent = none → b.egp_equivalent = none) := by
  have hs := fetch_all_sort_sorted rs
  refine hs.imp_of_mem ?_
  intro a b ha hb hab hnone
  cases hb' : b.egp_equivalent with
  | none => rfl
  | some v =>
    have hbmem : b ∈ rs := (fetch_all_sort_mem rs b).mp hb
    have hv := hpos b hbmem v hb'
    have hle : TgBot.sortKey b ≤ TgBot.sortKey a := hab
    rw [TgBot.sortKey, TgBot.sortKey, hnone, hb'] at hle
    simp only [Option.getD_some, Option.getD_none] at hle
    exact absurd (lt_of_lt_of_le hv hle) (lt_irrefl 0)

/-! ### Claim theorems -/

/-- C8: for every value `v` and any state of the FX oracles,
`get_exchange_rate_to_egp` applied to the reference currency EGP returns `v`
unchanged; the result does not depend on the oracles, so no FX lookup is
consulted. -/
theorem claim_C8_egp_short_circuit (directRate inverseRate : String → Option Rat)
    (amount : Rat) :
    TgBot.get_exchange_rate_to_egp directRate inverseRate "EGP" amount = some amount := by
  simp [TgBot.get_exchange_rate_to_egp]

/-- C1 (counterexample): the claim as stated fails on the telegram variant.
Its selector applies no payment-method filter, so on an advertisement set
whose only candidate offers nothing but the deny-listed Alipay it still
succeeds, and the returned offer carries no allowed payment method. -/
theorem claim_C1_counterexample : ¬ c1_claim_statement := by
  intro h
  have heq : TgBot.get_p2p_price_for_currency "EUR" 100 [adAlipayOnly] =
      .ok tgAlipaySelected := by rfl
  obtain ⟨m, hm, hnot⟩ := (h.2.2 "EUR" 100 [adAlipayOnly] tgAlipaySelected heq).2.2.2
  have hma : m = "Alipay" := by simpa [tgAlipaySelected] using hm
  subst hma
  exact hnot (by simp [TgBot.EXCLUDED_PAYMENT_METHODS])

/-- C1 (amended): whenever a selector succeeds, the selected advertisement
satisfies `min ≤ amount ≤ max` and `available ≥ amount`. In the allow-list
variants (p2p_bot, buy_bot) the returned offer additionally carries a
non-empty method list consisting of allow-listed methods only; the deny-list
variant (telegram_bot) gives no payment-method guarantee, since its selector
applies no payment filter. -/
theorem claim_C1_amended :
    (∀ (fiat asset trade_type : String) (amount : Rat) (ads : List Ad) (r : P2pBot.Result),
      P2pBot.fetch_p2p fiat asset trade_type amount ads = .ok r →
        r.min ≤ amount ∧ amount ≤ r.max ∧ r.available ≥ amount ∧
        r.methods ≠ [] ∧ ∀ m ∈ r.methods, m ∈ P2pBot.PAY_METHODS) ∧
    (∀ (currency : String) (amount : Rat) (ads : List Ad) (r : BuyBot.Result),
      BuyBot.get_p2p_buy_price_for_currency currency amount ads = .ok r →
        r.min ≤ amount ∧ amount ≤ r.max ∧ r.available ≥ amount ∧
        r.payment_methods ≠ [] ∧
        ∀ m ∈ r.payment_methods, m ∈ BuyBot.ALLOWED_PAYMENT_METHODS) ∧
    (∀ (currency : String) (amount : Rat) (ads : List Ad) (r : TgBot.Result),
      TgBot.get_p2p_price_for_currency currency amount ads = .ok r →
        r.min ≤ amount ∧ amount ≤ r.max ∧ r.available ≥ amount) := by
  refine ⟨?_, ?_, ?_⟩
  · intro fiat asset trade_type amount ads r h
    obtain ⟨best, hads, hok, hpay, hmin, hmax, havl, hpr, hmeth⟩ :=
      fetch_p2p_ok_shape fiat asset trade_type amount ads r h
    rw [amountOk_iff] at hok
    refine ⟨by rw [hmin]; exact hok.1, by rw [hmax]; exact hok.2.1,
      by rw [havl]; exact hok.2.2, ?_, ?_⟩
    · rw [hmeth]
      obtain ⟨m, hm, hmp⟩ := List.any_eq_true.mp hpay
      intro hnil
      have hmem : m ∈ best.tradeMethods.filter (fun m => decide (m ∈ P2pBot.PAY_METHODS)) :=
        List.mem_filter.mpr ⟨hm, hmp⟩
      rw [hnil] at hmem
      exact absurd hmem (List.not_mem_nil m)
    · intro m hm
      rw [hmeth] at hm
      exact of_decide_eq_true (List.mem_filter.mp hm).2
  · intro currency amount ads r h
    obtain ⟨best, hads, hok, hpay, hmin, hmax, havl, hpr, hmeth⟩ :=
      buy_price_ok_shape currency amount ads r h
    rw [amountOk_iff] at hok
    refine ⟨by rw [hmin]; exact hok.1, by rw [hmax]; exact hok.2.1,
      by rw [havl]; exact hok.2.2, ?_, ?_⟩
    · rw [hmeth]
      obtain ⟨m, hm, hmp⟩ := List.any_eq_true.mp hpay
      intro hnil
      have hmem : m ∈ best.tradeMethods.filter
          (fun m => decide (m ∈ BuyBot.ALLOWED_PAYMENT_METHODS)) :=
        List.mem_filter.mpr ⟨hm, hmp⟩
      rw [hnil] at hmem
      exact absurd hmem (List.not_mem_nil m)
    · intro m hm
      rw [hmeth] at hm
      exact of_decide_eq_true (List.mem_filter.mp hm).2
  · intro currency amount ads r h
    obtain ⟨best, hads, hok, hmin, hmax, havl, hpr, hmeth⟩ :=
      tg_price_ok_shape currency amount ads r h
    rw [amountOk_iff] at hok
    exact ⟨by rw [hmin]; exact hok.1, by rw [hmax]; exact hok.2.1,
      by rw [havl]; exact hok.2.2⟩

/-- C1 (witness): the amended claim applied to a concrete SELL selection
over a single allow-listed advertisement. -/
theorem claim_C1_amended_witness :
    p2pBankResult.min ≤ 100 ∧ (100 : Rat) ≤ p2pBankResult.max ∧
    p2pBankResult.available ≥ 100 ∧ p2pBankResult.methods ≠ [] ∧
    ∀ m ∈ p2pBankResult.methods, m ∈ P2pBot.PAY_METHODS :=
  claim_C1_amended.1 "EUR" "USDT" "SELL" 100 [adBank] p2pBankResult (by rfl)

/-- C2 (code evidence): with two otherwise identical valid candidates at
prices 1 and 2, buy_bot's BUY-direction selector returns the price-2 offer
(`max(valid, key=price)`, buy_bot.py line 116), although the cheaper
price-1 candidate passes every filter; the parametric selector of p2p_bot
on the same input in BUY mode returns the price-1 offer ("BUY → lowest
price wins", p2p_bot.py lines 90-94). -/
theorem claim_C2_code_divergence :
    BuyBot.get_p2p_buy_price_for_currency "EUR" 100 [adLow, adBank] = .ok buyMaxResult ∧
    buyMaxResult.price = 2 ∧ adLow.price = 1 ∧ adLow.price < buyMaxResult.price ∧
    amountOk 100 adLow = true ∧
    adLow.tradeMethods.any (fun m => decide (m ∈ BuyBot.ALLOWED_PAYMENT_METHODS)) = true ∧
    P2pBot.fetch_p2p "EUR" "USDT" "BUY" 100 [adLow, adBank] = .ok p2pBuyMinResult ∧
    p2pBuyMinResult.price = 1 :=
  ⟨by rfl, by rfl, by rfl, by decide, by rfl, by rfl, by rfl, by rfl⟩

/-- C3 (counterexample): the claim as stated fails in BUY direction. The
sorts compare `egp_price or 0`, so an offer with a null normalized value is
compared as 0 and, in the ascending BUY order, is placed *before* every
offer with a positive normalized value, not after. -/
theorem claim_C3_counterexample : ¬ c3_claim_statement := by
  intro h
  have h2 := (h.1 "BUY" [rankedNull, rankedPos]).2
  have heq : P2pBot.run_fetch_sort "BUY" [rankedNull, rankedPos] =
      [rankedNull, rankedPos] := by rfl
  rw [heq] at h2
  have h3 := (List.pairwise_cons.mp h2).1 rankedPos (List.mem_cons_self _ _) rfl
  simp [rankedPos] at h3

/-- C3 (amended): every ranked list is sorted with respect to the key
`egp_price or 0` — non-increasing for SELL, non-decreasing otherwise
(p2p_bot), and non-increasing in the telegram variant. When every non-null
normalized value is positive (as for genuine prices), null-valued offers
trail in the SELL order; in the BUY order they are compared as 0 and lead
instead. -/
theorem claim_C3_amended :
    (∀ (trade_type : String) (rs : List P2pBot.Ranked),
      (P2pBot.run_fetch_sort trade_type rs).Pairwise (P2pBot.sortRel trade_type)) ∧
    (∀ rs : List TgBot.Result,
      (TgBot.fetch_all_sort rs).Pairwise TgBot.sortRel) ∧
    (∀ rs : List P2pBot.Ranked,
      (∀ r ∈ rs, ∀ v : Rat, r.egp_price = some v → 0 < v) →
      (P2pBot.run_fetch_sort "SELL" rs).Pairwise
        fun a b => a.egp_price = none → b.egp_price = none) ∧
    (∀ rs : List TgBot.Result,
      (∀ r ∈ rs, ∀ v : Rat, r.egp_equivalent = some v → 0 < v) →
      (TgBot.fetch_all_sort rs).Pairwise
        fun a b => a.egp_equivalent = none → b.egp_equivalent = none) :=
  ⟨run_fetch_sort_sorted, fetch_all_sort_sorted,
    run_fetch_sort_nulls_last, fetch_all_sort_nulls_last⟩

/-- C3 (witness): the amended claim applied to a concrete SELL ranking
where nulls indeed trail. -/
theorem claim_C3_amended_witness :
    (P2pBot.run_fetch_sort "SELL" [rankedNull, rankedPos]).Pairwise
      (fun a b => a.egp_price = none → b.egp_price = none) := by
  apply claim_C3_amended.2.2.1
  intro r hr v hv
  rcases List.mem_cons.mp hr with rfl | hr2
  · simp [rankedNull] at hv
  · rcases List.mem_cons.mp hr2 with rfl | h3
    · have : (5 : Rat) = v := by simpa [rankedPos] using hv
      rw [← this]
      norm_num
    · simp at h3

namespace TgBot

/-- The per-offer skip test of the alert loop, spelled out: an offer is not
skipped exactly when its EGP value is present, nonzero and strictly above
the threshold, and at least one of its payment methods is not deny-listed. -/
theorem skips_eq_false_iff (t : Rat) (r : Result) :
    skips t r = false ↔
      (∃ v : Rat, r.egp_equivalent = some v ∧ v ≠ 0 ∧ t < v) ∧
      non_excluded r.payment_methods ≠ [] := by
  unfold skips
  cases h : r.egp_equivalent with
  | none => simp [h]
  | some v =>
    simp only [Bool.or_eq_false_iff, decide_eq_false_iff_not, not_le,
      List.isEmpty_eq_false, Option.some.injEq]
    constructor
    · rintro ⟨⟨h1, h2⟩, h3⟩
      exact ⟨⟨v, rfl, h1, h2⟩, h3⟩
    · rintro ⟨⟨w, hw, h1, h2⟩, h3⟩
      cases hw
      exact ⟨⟨h1, h2⟩, h3⟩

end TgBot

/-- C4 (counterexample): the claim's "if and only if" fails. The alert loop
additionally requires at least one non-deny-listed payment method: an offer
whose EGP value strictly exceeds the threshold and whose key is fresh emits
no alert when its only payment method is the deny-listed Alipay. -/
theorem claim_C4_counterexample : ¬ c4_claim_statement := by
  intro h
  have h2 := (h.2 1000 [tgOfferAlipay] [] tgOfferAlipay).mpr
    ⟨List.mem_cons_self _ _, ⟨2000, rfl, by norm_num⟩, by simp⟩
  have heq : (TgBot.check_and_send_alerts (some 1000) [tgOfferAlipay] []).2 = [] := by rfl
  rw [heq] at h2
  exact absurd h2 (List.not_mem_nil _)

/-- C4 (amended): with no threshold the evaluation returns the key set
unchanged and emits nothing. With a threshold `t`, over a result list with
pairwise distinct alert keys, an offer emits an alert if and only if it is
in the list, its EGP value is present, nonzero and strictly above `t`, it
has at least one payment method outside the deny-list, and its alert key is
not already in the alerted-key set. -/
theorem claim_C4_amended :
    (∀ (rs : List TgBot.Result) (ks : List (String × Rat)),
      TgBot.check_and_send_alerts none rs ks = (ks, [])) ∧
    (∀ (t : Rat) (rs : List TgBot.Result) (ks : List (String × Rat)) (r : TgBot.Result),
      (rs.map TgBot.alert_key).Nodup →
      (r ∈ (TgBot.check_and_send_alerts (some t) rs ks).2 ↔
        r ∈ rs ∧ (∃ v : Rat, r.egp_equivalent = some v ∧ v ≠ 0 ∧ t < v) ∧
        TgBot.non_excluded r.payment_methods ≠ [] ∧ TgBot.alert_key r ∉ ks)) := by
  refine ⟨fun rs ks => rfl, ?_⟩
  intro t rs ks r hnd
  constructor
  · intro h
    obtain ⟨h1, h2, h3⟩ := TgBot.check_go_sent_inv t rs ks r h
    obtain ⟨hv, hm⟩ := (TgBot.skips_eq_false_iff t r).mp h2
    exact ⟨h1, hv, hm, h3⟩
  · rintro ⟨h1, hv, hm, h3⟩
    exact TgBot.check_go_mem_sent t rs ks r hnd h1
      ((TgBot.skips_eq_false_iff t r).mpr ⟨hv, hm⟩) h3

/-- C4 (witness): the amended claim applied to a single qualifying offer
with a fresh key: the alert is emitted. -/
theorem claim_C4_amended_witness :
    tgOfferBank ∈ (TgBot.check_and_send_alerts (some 1000) [tgOfferBank] []).2 := by
  refine (claim_C4_amended.2 1000 [tgOfferBank] [] tgOfferBank (by simp)).mpr
    ⟨List.mem_cons_self _ _, ⟨2000, rfl, by norm_num, by norm_num⟩, ?_, by simp⟩
  simp [TgBot.non_excluded, tgOfferBank, TgBot.EXCLUDED_PAYMENT_METHODS]

/-- C5: evaluating the alert engine a second time over the same ranked
offers with the key set carried over from the first call emits zero new
alerts, and within one evaluation the emitted offers carry pairwise
distinct alert keys, none of which was already alerted — so each key fires
at most once per epoch. -/
theorem claim_C5_idempotent_dedup (t : Option Rat) (rs : List TgBot.Result)
    (ks : List (String × Rat)) :
    (TgBot.check_and_send_alerts t rs (TgBot.check_and_send_alerts t rs ks).1).2 = [] ∧
    ((TgBot.check_and_send_alerts t rs ks).2.map TgBot.alert_key).Nodup ∧
    ∀ r ∈ (TgBot.check_and_send_alerts t rs ks).2, TgBot.alert_key r ∉ ks := by
  cases t with
  | none => exact ⟨rfl, by simp [TgBot.check_and_send_alerts], by simp [TgBot.check_and_send_alerts]⟩
  | some t =>
    refine ⟨?_, TgBot.check_go_sent_nodup t rs ks,
      fun r hr => (TgBot.check_go_sent_inv t rs ks r hr).2.2⟩
    apply TgBot.check_go_no_new
    intro r hr hs
    exact TgBot.check_go_keys_complete t rs ks r hr hs

/-- C5 (witness): the dedup invariant applied to a concrete evaluation that
emits one alert. -/
theorem claim_C5_witness :
    TgBot.alert_key tgOfferBank ∉ ([] : List (String × Rat)) := by
  refine (claim_C5_idempotent_dedup (some 1000) [tgOfferBank] []).2.2 tgOfferBank ?_
  rw [show (TgBot.check_and_send_alerts (some 1000) [tgOfferBank] []).2 = [tgOfferBank] from rfl]
  exact List.mem_cons_self _ _

/-- C6: each telegram configuration command that can change the threshold
or the requested amount either leaves the whole state untouched (its
validation failed) or leaves `alerted_keys` empty; cancelling the alert
always clears `alerted_keys`. -/
theorem claim_C6_config_clears_alerted (arg : Option Rat) (s : TgBot.State) :
    ((TgBot.cmd_setamount arg s).1.alerted_keys = [] ∨ (TgBot.cmd_setamount arg s).1 = s) ∧
    ((TgBot.cmd_setalert arg s).1.alerted_keys = [] ∨ (TgBot.cmd_setalert arg s).1 = s) ∧
    (TgBot.cmd_cancelalert s).alerted_keys = [] := by
  refine ⟨?_, ?_, rfl⟩
  · cases arg with
    | none => exact Or.inr rfl
    | some a =>
      by_cases h : a ≤ 0
      · exact Or.inr (by simp [TgBot.cmd_setamount, h])
      · exact Or.inl (by simp [TgBot.cmd_setamount, h])
  · cases arg with
    | none => exact Or.inr rfl
    | some a =>
      by_cases h : a ≤ 0
      · exact Or.inr (by simp [TgBot.cmd_setalert, h])
      · exact Or.inl (by simp [TgBot.cmd_setalert, h])

/-- C7: every configuration call with invalid input — `autostart` with an
unparsable argument or an interval below the minimum (10 in telegram_bot,
30 in p2p_bot; p2p_bot also rejects a missing argument), `setamount` or
`setalert` with a missing, unparsable or non-positive value — fails with an
error reply, leaves every field of the state unchanged, and neither starts
nor cancels any periodic job. -/
theorem claim_C7_invalid_input_no_mutation (s : TgBot.State) (jobs : Nat) (n : Int)
    (a : Rat) (ps : P2pBot.State) (j : Nat) :
    TgBot.cmd_autostart .bad s jobs = (s, jobs, false) ∧
    (n < 10 → TgBot.cmd_autostart (.val n) s jobs = (s, jobs, false)) ∧
    P2pBot.cmd_autostart .missing ps j = (ps, false) ∧
    P2pBot.cmd_autostart .bad ps j = (ps, false) ∧
    (n < 30 → P2pBot.cmd_autostart (.val n) ps j = (ps, false)) ∧
    (a ≤ 0 → TgBot.cmd_setamount (some a) s = (s, false)) ∧
    TgBot.cmd_setamount none s = (s, false) ∧
    (a ≤ 0 → TgBot.cmd_setalert (some a) s = (s, false)) ∧
    TgBot.cmd_setalert none s = (s, false) := by
  refine ⟨rfl, ?_, rfl, rfl, ?_, ?_, rfl, ?_, rfl⟩
  · intro h; simp [TgBot.cmd_autostart, h]
  · intro h; simp [P2pBot.cmd_autostart, h]
  · intro h; simp [TgBot.cmd_setamount, h]
  · intro h; simp [TgBot.cmd_setalert, h]

/-- C7 (witness): the no-mutation property at concrete invalid inputs: an
interval of 5 (telegram, minimum 10), an interval of 20 (p2p_bot, minimum
30), a negative amount and a zero threshold. -/
theorem claim_C7_witness :
    TgBot.cmd_autostart (.val 5) tgStateDemo 3 = (tgStateDemo, 3, false) ∧
    P2pBot.cmd_autostart (.val 20) p2pStateDemo 7 = (p2pStateDemo, false) ∧
    TgBot.cmd_setamount (some (-1)) tgStateDemo = (tgStateDemo, false) ∧
    TgBot.cmd_setalert (some 0) tgStateDemo = (tgStateDemo, false) :=
  ⟨(claim_C7_invalid_input_no_mutation tgStateDemo 3 5 (-1) p2pStateDemo 7).2.1 (by decide),
   (claim_C7_invalid_input_no_mutation tgStateDemo 3 20 (-1) p2pStateDemo 7).2.2.2.2.1
     (by decide),
   (claim_C7_invalid_input_no_mutation tgStateDemo 3 5 (-1) p2pStateDemo 7).2.2.2.2.2.1
     (by norm_num),
   (claim_C7_invalid_input_no_mutation tgStateDemo 3 5 0 p2pStateDemo 7).2.2.2.2.2.2.2.1
     (by norm_num)⟩

/-- C9: a manual fetch clears the alerted keys before evaluating alerts, so
its alert evaluation runs against the empty key set whatever was alerted
before — an offer passing the threshold check fires again even if its key
was alerted previously; the periodic auto-refresh job performs no such
clear and evaluates against the carried-over key set, so an offer whose
key is already alerted fires nothing there. -/
theorem claim_C9_fetch_resets_epoch (results : List TgBot.Result) (now : Nat)
    (s : TgBot.State) :
    (TgBot.cmd_fetch results now s).2 =
      (TgBot.check_and_send_alerts s.threshold_egp results []).2 ∧
    (TgBot.cmd_fetch results now s).1.alerted_keys =
      (TgBot.check_and_send_alerts s.threshold_egp results []).1 ∧
    (s.auto_active = true →
      (TgBot.auto_refresh_job results now s).2 =
        (TgBot.check_and_send_alerts s.threshold_egp results s.alerted_keys).2) ∧
    (∀ (t : Rat) (r : TgBot.Result), s.threshold_egp = some t → TgBot.skips t r = false →
      r ∈ (TgBot.cmd_fetch [r] now s).2) ∧
    (∀ (t : Rat) (r : TgBot.Result), s.threshold_egp = some t →
      TgBot.alert_key r ∈ s.alerted_keys →
      r ∉ (TgBot.auto_refresh_job [r] now s).2) := by
  refine ⟨rfl, rfl, ?_, ?_, ?_⟩
  · intro h
    simp [TgBot.auto_refresh_job, h]
  · intro t r ht hs
    have heq : (TgBot.cmd_fetch [r] now s).2 =
        (TgBot.check_and_send_alerts s.threshold_egp [r] []).2 := rfl
    rw [heq, ht]
    simp [TgBot.check_and_send_alerts, TgBot.check_go, hs]
  · intro t r ht hk hmem
    rcases hauto : s.auto_active with _ | _
    · simp [TgBot.auto_refresh_job, hauto] at hmem
    · simp only [TgBot.auto_refresh_job, hauto, Bool.true_eq_false, if_false] at hmem
      rw [ht] at hmem
      have hinv := TgBot.check_go_sent_inv t [r] s.alerted_keys r hmem
      exact hinv.2.2 hk

/-- C9 (witness): with a 1000 EGP threshold and the offer's key already
alerted, a manual fetch emits the alert again while the auto-refresh job
does not. -/
theorem claim_C9_witness :
    tgOfferBank ∈ (TgBot.cmd_fetch [tgOfferBank] 1 tgStateWithAlert).2 ∧
    tgOfferBank ∉ (TgBot.auto_refresh_job [tgOfferBank] 1 tgStateWithAlert).2 :=
  ⟨(claim_C9_fetch_resets_epoch [tgOfferBank] 1 tgStateWithAlert).2.2.2.1 1000 tgOfferBank
      rfl (by rfl),
   (claim_C9_fetch_resets_epoch [tgOfferBank] 1 tgStateWithAlert).2.2.2.2 1000 tgOfferBank
      rfl (List.mem_cons_self _ _)⟩

/-- C10: the deny-list variant (telegram_bot) applies no payment-method
filter at selection time — succeeding whenever some advertisement passes
the amount filter and attaching the winner's full payment-method list —
and applies the deny-list only at alert time: an offer all of whose
methods are deny-listed is never emitted as an alert, for any threshold
and key set, although it stays in the ranked results. -/
theorem claim_C10_denylist_variant :
    (∀ (currency : String) (amount : Rat) (ads : List Ad) (r : TgBot.Result),
      TgBot.get_p2p_price_for_currency currency amount ads = .ok r →
      ∃ best ∈ ads, r.payment_methods = best.tradeMethods) ∧
    (∀ (currency : String) (amount : Rat) (ads : List Ad) (v : Ad) (vs : List Ad),
      ads.filter (amountOk amount) = v :: vs →
      ∃ r, TgBot.get_p2p_price_for_currency currency amount ads = .ok r ∧
        r.payment_methods = (maxByPrice v vs).tradeMethods) ∧
    (∀ (t : Option Rat) (rs : List TgBot.Result) (ks : List (String × Rat))
        (r : TgBot.Result), r ∈ rs →
      (∀ p ∈ r.payment_methods, p ∈ TgBot.EXCLUDED_PAYMENT_METHODS) →
      r ∉ (TgBot.check_and_send_alerts t rs ks).2) ∧
    (∀ (rs : List TgBot.Result) (r : TgBot.Result),
      r ∈ TgBot.fetch_all_sort rs ↔ r ∈ rs) := by
  refine ⟨?_, ?_, ?_, fetch_all_sort_mem⟩
  · intro currency amount ads r h
    obtain ⟨best, hads, _, _, _, _, _, hmeth⟩ := tg_price_ok_shape currency amount ads r h
    exact ⟨best, hads, hmeth⟩
  · intro currency amount ads v vs hfil
    have hne : ads.isEmpty = false := by
      cases ads with
      | nil => simp at hfil
      | cons a as => rfl
    refine ⟨{ currency := currency, price := (maxByPrice v vs).price,
              total_in_currency := amount * (maxByPrice v vs).price,
              merchant := (maxByPrice v vs).nickName,
              payment_methods := (maxByPrice v vs).tradeMethods,
              min := (maxByPrice v vs).minSingleTransAmount,
              max := (maxByPrice v vs).dynamicMaxSingleTransAmount,
              available := (maxByPrice v vs).surplusAmount,
              completion_pct := round_to 2 ((maxByPrice v vs).monthFinishRate * 100),
              monthly_orders := (maxByPrice v vs).monthOrderCount,
              egp_equivalent := none }, ?_, rfl⟩
    simp only [TgBot.get_p2p_price_for_currency, hne, hfil]
    rfl
  · intro t rs ks r hr hall hmem
    cases t with
    | none => simp [TgBot.check_and_send_alerts] at hmem
    | some t =>
      have hinv := TgBot.check_go_sent_inv t rs ks r hmem
      obtain ⟨-, hne⟩ := (TgBot.skips_eq_false_iff t r).mp hinv.2.1
      apply hne
      rw [TgBot.non_excluded, List.filter_eq_nil_iff]
      intro p hp
      simp [hall p hp]

/-- C10 (witness): the offer whose only method is the deny-listed Alipay is
never alerted on, at a concrete threshold and key set. -/
theorem claim_C10_witness :
    tgOfferAlipay ∉ (TgBot.check_and_send_alerts (some 1000) [tgOfferAlipay] []).2 :=
  claim_C10_denylist_variant.2.2.1 (some 1000) [tgOfferAlipay] [] tgOfferAlipay
    (List.mem_cons_self _ _)
    (by
      intro p hp
      have hpa : p = "Alipay" := by simpa [tgOfferAlipay] using hp
      subst hpa
      simp [TgBot.EXCLUDED_PAYMENT_METHODS])
